import Mathlib

/-!
# Verification of the experiment-orchestration scripts

Shallow embedding, in Lean 4, of the parts of the repository's three Python
scripts (`randomRuns.py`, `run_experiment.py`, `sweep.py`) that the spec's
claims are about, together with proofs or refutations of those claims.

Numeric values that Python holds as `float` are modelled as exact rationals
(`ℚ`); Python dictionaries are modelled as functions `String → Option V`
(their lookup semantics); a Python function that can raise is modelled with an
explicit outcome type.
-/

set_option autoImplicit false

namespace Spec2Proof

/-! ## Parameter sampling window (`randomRuns.py`, lines 67-84)

The per-parameter computation inside the run loop of `randomRuns.py`:

    full_range   = max_val - min_val
    center       = (min_val + max_val) / 2.0
    reduced_range = full_range * range_percent
    sampling_min = center - (reduced_range / 2.0)
    sampling_max = center + (reduced_range / 2.0)
    sampling_min = max(sampling_min, min_val)
    sampling_max = min(sampling_max, max_val)
-/

/-- `sampling_min` as computed by `randomRuns.py` (lines 70-83): the lower end
of the centered sampling window, clamped from below by the original `min_val`. -/
def sampling_min (min_val max_val range_percent : ℚ) : ℚ :=
  let full_range := max_val - min_val
  let center := (min_val + max_val) / 2
  let reduced_range := full_range * range_percent
  max (center - reduced_range / 2) min_val

/-- `sampling_max` as computed by `randomRuns.py` (lines 70-84): the upper end
of the centered sampling window, clamped from above by the original `max_val`. -/
def sampling_max (min_val max_val range_percent : ℚ) : ℚ :=
  let full_range := max_val - min_val
  let center := (min_val + max_val) / 2
  let reduced_range := full_range * range_percent
  min (center + reduced_range / 2) max_val

/-! ## Sweep driver (`sweep.py`)

`sweep.py` generates the sweep grid with `np.linspace(args.start, args.end,
args.steps)` (line 32) and builds, for every grid value and repeat, the
command line for `run_experiment.py` (lines 39-53).
-/

/-- `np.linspace start stop num` over exact rationals, as used by `sweep.py`
line 32 (default `endpoint=True`): `num` evenly spaced values from `start` to
`stop` inclusive; `num = 1` yields `[start]`, `num = 0` yields `[]`. -/
def linspace (start stop : ℚ) (num : Nat) : List ℚ :=
  if num = 0 then []
  else if num = 1 then [start]
  else (List.range num).map (fun i : Nat => start + (i : ℚ) * (stop - start) / ((num : ℚ) - 1))

/-- `true` exactly on a command-line token that passes an environment path:
the literal `"--env"` or anything of the form `"--env=..."`. -/
def isEnvArg (s : String) : Bool := s == "--env" || List.isPrefixOf "--env=".data s.data

/-- ASCII lowering of one character, as Python `str.lower` acts on ASCII. -/
def lowerChar (c : Char) : Char :=
  if 65 ≤ c.toNat ∧ c.toNat ≤ 90 then Char.ofNat (c.toNat + 32) else c

/-- Python `str.lower()` (modelled for ASCII strings, which is all the
sentinel comparison `args.env_path.lower() != "none"` needs). -/
def pyLower (s : String) : String := ⟨s.data.map lowerChar⟩

/-- The command line built by `sweep.py` (lines 39-53) for one run: the base
arguments, then — under `if args.env_path.lower() != "none":` — the list
`["--set", args.param, str(v)]` (the branch the source comments as "include
environment only if not 'none'" appends `--set`, not `--env`), then
unconditionally `["--set", args.param, str(v)]` again.  `pyexe` stands for
`sys.executable`; the learning-rate token is always `"--lr=0.0003"` because
`args` never has an `lr` attribute, so `args.lr if hasattr(args,'lr') else
3e-4` always takes the `3e-4` branch. -/
def sweepCmd (pyexe param vstr behavior_name algorithm batch_size env_path : String) :
    List String :=
  let cmd := [pyexe, "run_experiment.py",
    "--behavior-name=" ++ behavior_name,
    "--algorithm=" ++ algorithm,
    "--batch-size=" ++ batch_size,
    "--lr=" ++ "0.0003"]
  let cmd := if pyLower env_path ≠ "none" then cmd ++ ["--set", param, vstr] else cmd
  cmd ++ ["--set", param, vstr]

/-! ## Config patcher (`run_experiment.py`, lines 152-160)

The `behaviors` mapping of the YAML configuration is modelled by its lookup
function `String → Option V` (the lookup semantics of a Python dict).  The
source:

    behaviors = cfg.get("behaviors", \x7b\x7d)
    if "__BEHAVIOR_NAME__" in behaviors and args.behavior_name not in behaviors:
        behaviors[args.behavior_name] = behaviors.pop("__BEHAVIOR_NAME__")
    if args.behavior_name not in behaviors:
        print(...); sys.exit(2)
-/

/-- The reserved placeholder key of the behaviors mapping. -/
def BEHAVIOR_PLACEHOLDER : String := "__BEHAVIOR_NAME__"

/-- The placeholder-rename step (`run_experiment.py` lines 154-155): when the
placeholder key is present and the target behavior key is not, the
placeholder's entry is popped and re-inserted under the target key; otherwise
the mapping is untouched. -/
def renameStep {V : Type} (behaviors : String → Option V) (behavior_name : String) :
    String → Option V :=
  if (behaviors BEHAVIOR_PLACEHOLDER).isSome && (behaviors behavior_name).isNone then
    fun k =>
      if k = behavior_name then behaviors BEHAVIOR_PLACEHOLDER
      else if k = BEHAVIOR_PLACEHOLDER then none
      else behaviors k
  else behaviors

/-- The behavior-key check of `run_experiment.py` lines 152-160: after the
placeholder-rename attempt, a missing target behavior key terminates the
process with exit code 2 (`sys.exit(2)`); otherwise the patched mapping flows
on into the rest of `main`. -/
def configStage {V : Type} (behaviors : String → Option V) (behavior_name : String) :
    Except Nat (String → Option V) :=
  let bs := renameStep behaviors behavior_name
  if (bs behavior_name).isNone then .error 2 else .ok bs

/-! ## Result ledger (`run_experiment.py`, `ensure_header`, lines 99-121)

`ensure_header` loops `for i in range(retries)` (defaults `retries=8`,
`delay=1.5`); each iteration checks `os.path.exists`, tries to open the CSV
in append mode and build the writer, writing the header first when the file
did not exist; on `PermissionError` it re-raises if `i == retries - 1` and
otherwise sleeps `delay` seconds and retries.  The loop is modelled with the
current attempt index `i` and the number `remaining` of attempts left
(`remaining = retries - i`, so `i == retries - 1` is `remaining = 1`);
`env i = true` means the `open` of attempt `i` succeeds, `false` means it
raises `PermissionError`; `ex` models `os.path.exists` (assumed stable across
attempts); each recursive step performs one `time.sleep(delay)`.
-/

/-- Retry count: the `retries=8` default of `ensure_header`. -/
def LEDGER_RETRIES : Nat := 8

/-- Retry delay in seconds: the `delay=1.5` default of `ensure_header`. -/
def LEDGER_DELAY : ℚ := 3/2

/-- Outcome of `ensure_header`: the file/writer pair returned from attempt
`attempt` after `sleeps` delays (with `wroteHeader` recording whether the
header row was written), the re-raised `PermissionError` after `sleeps`
delays, or Python's implicit `None` return (reachable only with
`retries = 0`). -/
inductive LedgerOpen where
  | opened (attempt sleeps : Nat) (wroteHeader : Bool)
  | raised (sleeps : Nat)
  | fellThrough
  deriving DecidableEq

/-- The retry loop of `ensure_header`, by recursion on the remaining attempt
count. -/
def ensureHeaderLoop (ex : Bool) (env : Nat → Bool) : Nat → Nat → Nat → LedgerOpen
  | _, 0, _ => .fellThrough
  | i, n + 1, sleeps =>
    if env i then .opened i sleeps (!ex)
    else if n = 0 then .raised sleeps
    else ensureHeaderLoop ex env (i + 1) n (sleeps + 1)

/-- `ensure_header` with its default `retries=8`. -/
def ensure_header (ex : Bool) (env : Nat → Bool) : LedgerOpen :=
  ensureHeaderLoop ex env 0 LEDGER_RETRIES 0

/-! ## Metric extraction (`run_experiment.py`, lines 223-247)

The launcher streams the trainer's output and, per line, runs

    match = re.search(r"Mean Reward:\s*([0-9.+-e]+)", line)
    if match:
        try:
            value = float(match.group(1).rstrip("."))
            mean_rewards.append(value)
        except ValueError:
            pass

and finally `mean_reward = sum(mean_rewards)/len(mean_rewards)` when any
value was collected, else `0.0`.

Notes on the regex, modelled exactly: inside the character class
`[0-9.+-e]`, `+-e` is a *range*, ASCII 43 to 101, which already contains
`0-9` and `.`; so the class is precisely the ASCII codepoints 43..101.
`\s` on a `str` pattern matches the Unicode whitespace set (U+00A0, U+2000
and friends included), and `\s*` is greedy; since no Unicode whitespace
codepoint lies in 43..101, backtracking over `\s*` can never rescue a
failed match, so the maximal-munch reading below is exact.  Every character
the capture group can contain lies in ASCII 43..101, which pins down what
`float` must be modelled on: signed decimal literals with an optional
fraction, an optional `e`/`E` exponent, and single underscores between
digits (PEP 515; `'_'` is codepoint 95, inside the class, and
`float("1_0") = 10.0`).  The class cannot produce `inf`/`nan` (the letters
`f`, `i`, `n` are outside 43..101), non-ASCII digits, or the whitespace
`float()` would strip.
-/

/-- The regex character class `[0-9.+-e]`: ASCII codepoints 43..101
(`+-e` is a range containing `0-9` and `.`). -/
def rewardClassChar (c : Char) : Bool := 43 ≤ c.toNat && c.toNat ≤ 101

/-- Python whitespace for `str`: the set `str.isspace()` accepts, which is
also what regex `\s` matches on a `str` pattern and what no-argument
`str.split()` and `str.strip()` split and strip on — U+0009..U+000D,
U+001C..U+001F, space, U+0085, U+00A0, U+1680, U+2000..U+200A, U+2028,
U+2029, U+202F, U+205F and U+3000. -/
def pyWhitespace (c : Char) : Bool :=
  let n := c.toNat
  (9 ≤ n && n ≤ 13) || (28 ≤ n && n ≤ 31) || n = 32 || n = 0x85 || n = 0xa0 ||
    n = 0x1680 || (0x2000 ≤ n && n ≤ 0x200a) || n = 0x2028 || n = 0x2029 ||
    n = 0x202f || n = 0x205f || n = 0x3000

/-- Match a literal character sequence at the head of the input, returning
the rest of the input on success. -/
def dropLit : List Char → List Char → Option (List Char)
  | [], cs => some cs
  | _ :: _, [] => none
  | l :: ls, c :: cs => if c = l then dropLit ls cs else none

/-- Try the pattern `Mean Reward:\s*([0-9.+-e]+)` anchored at the current
position: the literal, then maximal whitespace, then a maximal nonempty run
of class characters (the capture group). -/
def rewardMatchAt (cs : List Char) : Option (List Char) :=
  match dropLit "Mean Reward:".data cs with
  | none => none
  | some rest =>
    let grp := (rest.dropWhile (pyWhitespace ·)).takeWhile (rewardClassChar ·)
    if grp.isEmpty then none else some grp

/-- `re.search` for the pattern on one line: try every start position left
to right, returning the first capture group found. -/
def rewardSearch : List Char → Option (List Char)
  | [] => none
  | c :: cs =>
    match rewardMatchAt (c :: cs) with
    | some g => some g
    | none => rewardSearch cs

/-- Python `str.rstrip(".")`: drop trailing `'.'` characters. -/
def rstripDot (l : List Char) : List Char := (l.reverse.dropWhile (· = '.')).reverse

/-- Consume a maximal run of decimal digits, extending an accumulated value
and digit count.  Per PEP 515 a single `'_'` is consumed when it stands
between two digits (so `"1_0"` reads as the digits `10`, while a leading,
trailing or doubled underscore stops the run and is left for the caller,
where it makes the literal invalid — `float("1_")`, `float("_1")` and
`float("1__0")` all raise `ValueError`). -/
def takeDigits : List Char → Nat → Nat → Nat × Nat × List Char
  | [], v, n => (v, n, [])
  | c :: cs, v, n =>
    if '0' ≤ c ∧ c ≤ '9' then takeDigits cs (10 * v + (c.toNat - 48)) (n + 1)
    else
      match c, cs with
      | '_', c2 :: _ =>
        if 0 < n ∧ '0' ≤ c2 ∧ c2 ≤ '9' then takeDigits cs v n
        else (v, n, c :: cs)
      | _, _ => (v, n, c :: cs)

/-- The parsed shape of a decimal literal accepted by Python `float()`:
sign, integer-part value, fraction-part value and digit count, exponent sign
and value (an absent exponent is exponent `0`). -/
structure FloatRep where
  neg : Bool
  ip : Nat
  fp : Nat
  fpn : Nat
  eneg : Bool
  ev : Nat
  deriving DecidableEq

/-- The rational value denoted by a parsed decimal literal. -/
def floatVal (r : FloatRep) : ℚ :=
  let mant : ℚ := (if r.neg then -1 else 1) * ((r.ip : ℚ) + (r.fp : ℚ) / 10 ^ r.fpn)
  if r.eneg then mant / 10 ^ r.ev else mant * 10 ^ r.ev

/-- Parse the exponent part after `e`/`E`: optional sign, then at least one
digit, then the end of the string. -/
def expPart (neg : Bool) (ip fp fpn : Nat) (rest : List Char) : Option FloatRep :=
  let er : Bool × List Char :=
    match rest with
    | '+' :: r => (false, r)
    | '-' :: r => (true, r)
    | _ => (false, rest)
  let (ev, en, r3) := takeDigits er.2 0 0
  if en = 0 ∨ r3 ≠ [] then none else some ⟨neg, ip, fp, fpn, er.1, ev⟩

/-- Parse a signed decimal literal with optional fraction, optional `e`/`E`
exponent and PEP 515 single underscores between digits (via `takeDigits`);
`none` models `float()` raising `ValueError`. -/
def pyFloatParse (l : List Char) : Option FloatRep :=
  let sl : Bool × List Char :=
    match l with
    | '+' :: rest => (false, rest)
    | '-' :: rest => (true, rest)
    | _ => (false, l)
  let (ip, ipn, l2) := takeDigits sl.2 0 0
  let fr : Nat × Nat × List Char :=
    match l2 with
    | '.' :: rest => takeDigits rest 0 0
    | _ => (0, 0, l2)
  let (fp, fpn, l3) := fr
  if ipn = 0 ∧ fpn = 0 then none
  else
    match l3 with
    | [] => some ⟨sl.1, ip, fp, fpn, false, 0⟩
    | 'e' :: rest => expPart sl.1 ip fp fpn rest
    | 'E' :: rest => expPart sl.1 ip fp fpn rest
    | _ => none

/-- Python `float()` on a decimal-literal character list. -/
def pyFloat (l : List Char) : Option ℚ := (pyFloatParse l).map floatVal

/-- The value one output line contributes to `mean_rewards`: the parsed
capture group of the first regex match, or `none` when the line does not
match or `float` raises `ValueError`. -/
def lineReward (line : String) : Option ℚ :=
  match rewardSearch line.data with
  | none => none
  | some grp => pyFloat (rstripDot grp)

/-- The `mean_rewards` list accumulated over the streamed output lines. -/
def mean_rewards_of (lines : List String) : List ℚ := lines.filterMap lineReward

/-- The final `mean_reward` of the run: `sum(mean_rewards)/len(mean_rewards)`
when nonempty, else `0.0` (lines 244-247). -/
def mean_reward_of (lines : List String) : ℚ :=
  let ms := mean_rewards_of lines
  if ms.isEmpty then 0 else ms.sum / (ms.length : ℚ)

/-! ## Run launcher outcome and ledger row (`run_experiment.py`, lines 225-285)

After building the trainer command, `main` runs

    try:
        proc = subprocess.Popen(cmd, ...)
        for line in proc.stdout: ...      # metric extraction, see above
        proc.wait()
        mean_reward = ...
    except FileNotFoundError:
        sys.exit(127)
    row = \x7b"run_id": ..., ..., "mean_reward": mean_reward, ..., "user": ...\x7d
    f, writer = ensure_header(csv_path, fieldnames)
    with f:
        writer.writerow(row)

`proc.wait()` stores the child's exit status on `proc`, but `proc.returncode`
is never read afterwards: the `row` dict is built only from the identity /
hardware / timing values in scope and from `mean_reward`, and `main` falls
through to the ledger append regardless of the exit status.  The launch
outcome is modelled as either `notFound` (the `FileNotFoundError` branch,
`sys.exit(127)`) or `exited returncode lines`; the row's pass-through values
(identity, timing, hardware, environment facts) are abstracted as one `meta`
value of type `M`. -/

/-- How the trainer subprocess launch went: the executable was missing, or
the process ran to completion with some exit status after emitting `lines`. -/
inductive TrainerLaunch where
  | notFound
  | exited (returncode : Int) (outputLines : List String)

/-- The ledger row built for one run: the pass-through metadata and the
extracted `mean_reward`.  No field is computed from the exit status. -/
structure RunRecord (M : Type) where
  meta : M
  mean_reward : ℚ
  deriving DecidableEq

/-- The keys of the `row` dict of `run_experiment.py` (lines 256-276), in
source order — the ledger's column set. -/
def rowFieldnames : List String :=
  ["run_id", "timestamp", "algorithm", "learning_rate", "batch_size", "behavior_name",
   "env_path", "max_steps", "seed", "wall_time_sec", "cpu_count", "ram_gb", "gpu_name",
   "gpu_mem_gb", "mean_reward", "results_dir", "git_commit", "platform", "user"]

/-- The tail of `main` as a function of the launch outcome: `notFound` exits
the process with code 127; any `exited` outcome — the `returncode` included —
produces the row.  The `returncode` argument is ignored exactly as
`proc.returncode` is never read in the source. -/
def runExperimentOutcome {M : Type} (meta : M) (launch : TrainerLaunch) :
    Except Nat (RunRecord M) :=
  match launch with
  | .notFound => .error 127
  | .exited _ lines => .ok ⟨meta, mean_reward_of lines⟩

/-- The ledger append (`writer.writerow(row)`): on a produced row the ledger
grows by exactly that row; a process exit propagates. -/
def runAndLog {M : Type} (ledger : List (RunRecord M)) (meta : M) (launch : TrainerLaunch) :
    Except Nat (List (RunRecord M)) :=
  match runExperimentOutcome meta launch with
  | .error c => .error c
  | .ok r => .ok (ledger ++ [r])

/-! ## Hardware probe (`run_experiment.py`, `detect_gpu`, lines 20-90)

`detect_gpu` branches on `platform.system().lower()`.

* On `"windows"`/`"linux"` it calls `nvidia-smi` inside a `try` block; the
  first output line is split on `","` into exactly a name and a memory field
  (a different shape raises `ValueError`), the memory field is tokenized and
  the last token `float()` accepts becomes the memory value, divided by 1024
  when the field mentions `"MiB"` (per-token failures are swallowed by a bare
  `except: pass`).  Any exception in the block is caught by
  `except Exception: pass` and the branch returns `(None, None)`; an empty
  output also falls through to `return None, None`.
* On `"darwin"` it calls `system_profiler SPDisplaysDataType`, scans the
  lines for `Chipset Model:\s*(.*)` and `VRAM.*:\s*(.*)` (in `VRAM.*:` the
  greedy `.*` makes the capture start after the *last* colon of the line,
  and the regex position advances past a `VRAM` occurrence with no later
  colon), breaking at the first VRAM match; if the memory value is falsy
  (`None` or the empty string) and the chipset name contains `"Apple"`, it
  reads total memory from `system_profiler SPHardwareDataType` via
  `Memory:\s*(.*)` (there `\s*` may cross newlines but the capture stops at
  the next newline).  When no chipset line matched, `"Apple" in None` raises
  `TypeError`, caught by the same `except Exception`.  On this branch the
  memory value is a *string* (e.g. `"8 GB"`), not a number.
* On any other platform value the function falls past both branches and
  returns Python's implicit bare `None` — not the pair `(None, None)` — so
  the caller's unpacking `gpu_name, gpu_mem_gb = detect_gpu()` raises
  `TypeError`.

An external invocation is `ok out` (the captured stdout) or `exc` (any
raised failure: utility missing, timeout, non-zero exit).  The outer
`Option` of the result distinguishes a returned pair (`some`) from the
implicit bare `None` (`none`). -/

/-- Outcome of one `subprocess.check_output` call. -/
inductive PyResult where
  | ok (out : String)
  | exc
  deriving DecidableEq

/-- The memory component of the probe result: numeric gigabytes on the
nvidia branch, the raw captured string on the darwin branch. -/
inductive GpuMem where
  | gb (q : ℚ)
  | raw (s : String)
  deriving DecidableEq

/-- Python `str.strip()` (ASCII whitespace). -/
def stripList (l : List Char) : List Char :=
  ((l.dropWhile (pyWhitespace ·)).reverse.dropWhile (pyWhitespace ·)).reverse

/-- Python `str.splitlines()` for `\n`-separated text: no trailing empty
line, `[] ` for the empty string. -/
def splitlinesAux : List Char → List Char → List (List Char)
  | [], acc => if acc.isEmpty then [] else [acc.reverse]
  | '\n' :: cs, acc => acc.reverse :: splitlinesAux cs []
  | c :: cs, acc => splitlinesAux cs (c :: acc)

/-- `str.splitlines()` on a character list. -/
def splitlines (l : List Char) : List (List Char) := splitlinesAux l []

/-- Python `str.split(",")`: keeps empty fields, one field for the empty
string. -/
def splitCommaAux : List Char → List Char → List (List Char)
  | [], acc => [acc.reverse]
  | ',' :: cs, acc => acc.reverse :: splitCommaAux cs []
  | c :: cs, acc => splitCommaAux cs (c :: acc)

/-- `str.split(",")` on a character list. -/
def splitComma (l : List Char) : List (List Char) := splitCommaAux l []

/-- Python `str.split()` with no argument: split on whitespace runs,
dropping empty fields. -/
def splitWsAux : List Char → List Char → List (List Char)
  | [], acc => if acc.isEmpty then [] else [acc.reverse]
  | c :: cs, acc =>
    if pyWhitespace c then
      if acc.isEmpty then splitWsAux cs [] else acc.reverse :: splitWsAux cs []
    else splitWsAux cs (c :: acc)

/-- `str.split()` on a character list. -/
def splitWs (l : List Char) : List (List Char) := splitWsAux l []

/-- Does `pat` occur at the head of `l`? -/
def startsWithList (pat l : List Char) : Bool := (dropLit pat l).isSome

/-- Python `pat in s`: substring containment. -/
def containsSub (pat : List Char) : List Char → Bool
  | [] => pat.isEmpty
  | c :: cs => startsWithList pat (c :: cs) || containsSub pat cs

/-- Leftmost occurrence of the literal `lit`, returning the remainder after
it (the regex-search step shared by the literal-prefix patterns). -/
def afterLit (lit : List Char) : List Char → Option (List Char)
  | [] => dropLit lit []
  | c :: cs =>
    match dropLit lit (c :: cs) with
    | some rest => some rest
    | none => afterLit lit cs

/-- The suffix after the last `':'`, if any — the effect of the greedy
`.*:` in `VRAM.*:`. -/
def afterLastColon : List Char → Option (List Char)
  | [] => none
  | c :: cs =>
    match afterLastColon cs with
    | some r => some r
    | none => if c = ':' then some cs else none

/-- `re.search(r"VRAM.*:\s*(.*)", line)`: the leftmost position where
`VRAM` matches and a colon follows; the capture is the rest of the line
after the last colon and the whitespace following it. -/
def vramSearch : List Char → Option (List Char)
  | [] => none
  | c :: cs =>
    match dropLit "VRAM".data (c :: cs) with
    | some rest =>
      match afterLastColon rest with
      | some r => some (r.dropWhile (pyWhitespace ·))
      | none => vramSearch cs
    | none => vramSearch cs

/-- `re.search(r"<lit>\s*(.*)", line)` for a literal pattern head on a
single line: the capture is the rest of the line after the literal and the
whitespace following it. -/
def litCapture (lit : List Char) (line : List Char) : Option (List Char) :=
  (afterLit lit line).map (List.dropWhile (pyWhitespace ·))

/-- `re.search(r"Memory:\s*(.*)", out)` over the whole multi-line output:
`\s*` may cross newlines, the capture stops at the next newline. -/
def memoryCapture (out : List Char) : Option (List Char) :=
  (afterLit "Memory:".data out).map
    (fun r => (r.dropWhile (pyWhitespace ·)).takeWhile (fun c => c ≠ '\n'))

/-- The per-line loop of the darwin branch: update the chipset name on every
`Chipset Model:` match, stop at the first `VRAM` match. -/
def darwinScan : List (List Char) → Option (List Char) →
    Option (List Char) × Option (List Char)
  | [], name => (name, none)
  | l :: ls, name =>
    let name' := match litCapture "Chipset Model:".data l with
      | some cap => some (stripList cap)
      | none => name
    match vramSearch l with
    | some cap => (name', some (stripList cap))
    | none => darwinScan ls name'

/-- Python falsiness of the darwin memory value: `None` or `""`. -/
def strFalsy : Option (List Char) → Bool
  | none => true
  | some [] => true
  | some (_ :: _) => false

/-- The windows/linux branch of `detect_gpu` (lines 24-57), with every
exception path landing on `(none, none)`. -/
def nvidiaBranch (inv : PyResult) : Option String × Option GpuMem :=
  match inv with
  | .exc => (none, none)
  | .ok s =>
    let out := stripList s.data
    if out.isEmpty then (none, none)
    else
      match splitlines out with
      | [] => (none, none)
      | line :: _ =>
        match (splitComma line).map stripList with
        | [nameL, memL] =>
          let isMiB := containsSub "MiB".data memL
          let mem_gb : Option ℚ := (splitWs memL).foldl
            (fun acc tok =>
              match pyFloat tok with
              | some q => some (if isMiB then q / 1024 else q)
              | none => acc) none
          (some ⟨nameL⟩, mem_gb.map GpuMem.gb)
        | _ => (none, none)

/-- The darwin branch of `detect_gpu` (lines 59-90), with every exception
path — including the `TypeError` from `"Apple" in None` — landing on
`(none, none)`. -/
def darwinBranch (invDisplays invHardware : PyResult) : Option String × Option GpuMem :=
  match invDisplays with
  | .exc => (none, none)
  | .ok output =>
    let nm := darwinScan (splitlines output.data) none
    if strFalsy nm.2 then
      match nm.1 with
      | none => (none, none)
      | some nameL =>
        if containsSub "Apple".data nameL then
          match invHardware with
          | .exc => (none, none)
          | .ok hw =>
            let mem' : Option (List Char) :=
              match memoryCapture hw.data with
              | some cap => some (stripList cap)
              | none => nm.2
            (some ⟨nameL⟩, mem'.map (fun m => GpuMem.raw ⟨m⟩))
        else (some ⟨nameL⟩, nm.2.map (fun m => GpuMem.raw ⟨m⟩))
    else (nm.1.map (fun n => (⟨n⟩ : String)), nm.2.map (fun m => GpuMem.raw ⟨m⟩))

/-- `detect_gpu`, as a function of the (already lowercased) platform string
and the outcomes of the three possible external invocations.  `none` is
Python's implicit bare `None` return on unrecognized platforms. -/
def detect_gpu (system : String) (nvidiaInv spDisplaysInv spHardwareInv : PyResult) :
    Option (Option String × Option GpuMem) :=
  if system = "windows" ∨ system = "linux" then some (nvidiaBranch nvidiaInv)
  else if system = "darwin" then some (darwinBranch spDisplaysInv spHardwareInv)
  else none

/-! ## Theorems -/

/-- C1: for every parameter range with `min_val < max_val` and every
`range_percent ∈ (0,1]`, the sampling window computed by the Random-Run driver
satisfies `min_val ≤ sampling_min ≤ sampling_max ≤ max_val`; the clamping never
inverts the bounds. -/
theorem samplingWindow_bounds (min_val max_val range_percent : ℚ)
    (hlt : min_val < max_val) (hpos : 0 < range_percent) (hle : range_percent ≤ 1) :
    min_val ≤ sampling_min min_val max_val range_percent ∧
    sampling_min min_val max_val range_percent ≤ sampling_max min_val max_val range_percent ∧
    sampling_max min_val max_val range_percent ≤ max_val := by
  simp only [sampling_min, sampling_max]
  have hr : (0:ℚ) ≤ (max_val - min_val) * range_percent := by
    have : (0:ℚ) ≤ max_val - min_val := by linarith
    positivity
  refine ⟨le_max_right _ _, ?_, min_le_right _ _⟩
  have h1 : (min_val + max_val) / 2 - (max_val - min_val) * range_percent / 2 ≤
      (min_val + max_val) / 2 + (max_val - min_val) * range_percent / 2 := by linarith
  have h2 : (min_val + max_val) / 2 - (max_val - min_val) * range_percent / 2 ≤ max_val := by
    nlinarith
  have h3 : min_val ≤ (min_val + max_val) / 2 + (max_val - min_val) * range_percent / 2 := by
    nlinarith
  exact max_le (le_min h1 h2) (le_min h3 hlt.le)

/-- Concrete instance of `samplingWindow_bounds` at `min_val = 0`,
`max_val = 10`, `range_percent = 1/2`. -/
theorem samplingWindow_bounds_witness :
    0 ≤ sampling_min 0 10 (1/2) ∧
    sampling_min 0 10 (1/2) ≤ sampling_max 0 10 (1/2) ∧
    sampling_max 0 10 (1/2) ≤ 10 :=
  samplingWindow_bounds 0 10 (1/2) (by norm_num) (by norm_num) (by norm_num)

/-- C2: with `range_percent = 1`, the centered-window computation followed by
clamping returns exactly the original bounds: `sampling_min = min_val` and
`sampling_max = max_val` (over exact arithmetic). -/
theorem samplingWindow_full_range (min_val max_val : ℚ) (hlt : min_val < max_val) :
    sampling_min min_val max_val 1 = min_val ∧
    sampling_max min_val max_val 1 = max_val := by
  simp only [sampling_min, sampling_max]
  constructor
  · have h : (min_val + max_val) / 2 - (max_val - min_val) * 1 / 2 = min_val := by ring
    rw [h, max_self]
  · have h : (min_val + max_val) / 2 + (max_val - min_val) * 1 / 2 = max_val := by ring
    rw [h, min_self]

/-- Concrete instance of `samplingWindow_full_range` at `min_val = 1/100000`,
`max_val = 1/1000` (the `learning_rate` range of `randomRuns.py`). -/
theorem samplingWindow_full_range_witness :
    sampling_min (1/100000) (1/1000) 1 = 1/100000 ∧
    sampling_max (1/100000) (1/1000) 1 = 1/1000 :=
  samplingWindow_full_range (1/100000) (1/1000) (by norm_num)

/-- C9: for `steps ≥ 1` the sweep driver's grid has exactly `steps` evenly
spaced values inclusive of both endpoints; `steps = 1` yields exactly
`[start]`; and `start = 0, end = 10, steps = 5` yields `[0, 2.5, 5, 7.5, 10]`. -/
theorem linspace_spec (s e : ℚ) (steps : Nat) (h1 : 1 ≤ steps) :
    (linspace s e steps).length = steps ∧
    (steps = 1 → linspace s e steps = [s]) ∧
    (2 ≤ steps → ∀ i, i < steps →
      (linspace s e steps)[i]? = some (s + i * (e - s) / ((steps : ℚ) - 1))) ∧
    (2 ≤ steps → (linspace s e steps)[0]? = some s ∧
      (linspace s e steps)[steps - 1]? = some e) ∧
    (2 ≤ steps → ∀ i, i + 1 < steps →
      ∃ a b, (linspace s e steps)[i]? = some a ∧ (linspace s e steps)[i+1]? = some b ∧
        b - a = (e - s) / ((steps : ℚ) - 1)) ∧
    linspace 0 10 5 = [0, 5/2, 5, 15/2, 10] := by
  have hne : steps ≠ 0 := by omega
  have hform : 2 ≤ steps → ∀ i, i < steps →
      (linspace s e steps)[i]? = some (s + i * (e - s) / ((steps : ℚ) - 1)) := by
    intro h2 i hi
    have hne1 : steps ≠ 1 := by omega
    simp only [linspace, if_neg hne, if_neg hne1]
    rw [List.getElem?_map, List.getElem?_range hi]
    rfl
  refine ⟨?_, ?_, hform, ?_, ?_, ?_⟩
  · by_cases hone : steps = 1
    · simp [linspace, hone]
    · simp only [linspace, if_neg hne, if_neg hone]
      rw [List.length_map, List.length_range]
  · intro hone; simp [linspace, hone]
  · intro h2
    have hcast : (2 : ℚ) ≤ (steps : ℚ) := by exact_mod_cast h2
    have hden : ((steps : ℚ) - 1) ≠ 0 := by linarith
    constructor
    · rw [hform h2 0 (by omega)]
      norm_num
    · rw [hform h2 (steps - 1) (by omega)]
      congr 1
      have hc : ((steps - 1 : Nat) : ℚ) = (steps : ℚ) - 1 := by
        have : (1 : Nat) ≤ steps := h1
        push_cast [this]
        ring
      rw [hc]
      field_simp
  · intro h2 i hi
    have hcast : (2 : ℚ) ≤ (steps : ℚ) := by exact_mod_cast h2
    have hden : ((steps : ℚ) - 1) ≠ 0 := by linarith
    refine ⟨_, _, hform h2 i (by omega), hform h2 (i+1) hi, ?_⟩
    push_cast
    ring
  · have h0 : (0:ℚ) + (0:ℚ) * ((10:ℚ) - 0) / ((5:ℚ) - 1) = 0 := by norm_num
    simp only [linspace]
    norm_num [List.range_succ]

/-- Concrete instance of `linspace_spec` at `start = 0`, `end = 10`,
`steps = 5`: five values, and the last one is the endpoint `10`. -/
theorem linspace_spec_witness :
    (linspace 0 10 5).length = 5 ∧ (linspace 0 10 5)[4]? = some 10 := by
  have h := linspace_spec 0 10 5 (by norm_num)
  exact ⟨h.1, by simpa using (h.2.2.2.1 (by norm_num)).2⟩

theorem isEnvArg_behavior (s : String) : isEnvArg ("--behavior-name=" ++ s) = false := by
  simp only [isEnvArg, String.data_append]
  simp [List.isPrefixOf]
  intro h
  have h2 := congrArg String.data h
  simp [String.data_append] at h2

theorem isEnvArg_algorithm (s : String) : isEnvArg ("--algorithm=" ++ s) = false := by
  simp only [isEnvArg, String.data_append]
  simp [List.isPrefixOf]
  intro h
  have h2 := congrArg String.data h
  simp [String.data_append] at h2

theorem isEnvArg_batch (s : String) : isEnvArg ("--batch-size=" ++ s) = false := by
  simp only [isEnvArg, String.data_append]
  simp [List.isPrefixOf]
  intro h
  have h2 := congrArg String.data h
  simp [String.data_append] at h2

/-- C10: when the supplied `env_path` is not the sentinel `"none"`, the sweep
driver's command line consists of the base arguments followed by the triple
`["--set", param, vstr]` twice; it contains no `--env` argument at all (given
that the interpreter path, the parameter name and the value string are not
themselves `--env` tokens); and the command line does not depend on the
environment path, so a supplied environment path is never passed through. -/
theorem sweepCmd_no_env (pyexe param vstr behavior_name algorithm batch_size env_path : String)
    (henv : pyLower env_path ≠ "none")
    (hpy : isEnvArg pyexe = false) (hparam : isEnvArg param = false)
    (hv : isEnvArg vstr = false) :
    sweepCmd pyexe param vstr behavior_name algorithm batch_size env_path =
      [pyexe, "run_experiment.py",
       "--behavior-name=" ++ behavior_name,
       "--algorithm=" ++ algorithm,
       "--batch-size=" ++ batch_size,
       "--lr=0.0003"] ++ ["--set", param, vstr] ++ ["--set", param, vstr] ∧
    (∀ a ∈ sweepCmd pyexe param vstr behavior_name algorithm batch_size env_path,
      isEnvArg a = false) ∧
    (∀ env2 : String, pyLower env2 ≠ "none" →
      sweepCmd pyexe param vstr behavior_name algorithm batch_size env2 =
      sweepCmd pyexe param vstr behavior_name algorithm batch_size env_path) := by
  have hself : sweepCmd pyexe param vstr behavior_name algorithm batch_size env_path =
      [pyexe, "run_experiment.py",
       "--behavior-name=" ++ behavior_name,
       "--algorithm=" ++ algorithm,
       "--batch-size=" ++ batch_size,
       "--lr=0.0003"] ++ ["--set", param, vstr] ++ ["--set", param, vstr] := by
    simp [sweepCmd, if_pos henv]
  refine ⟨hself, ?_, ?_⟩
  · intro a ha
    rw [hself] at ha
    simp only [List.mem_append, List.mem_cons, List.not_mem_nil, or_false] at ha
    rcases ha with ((h | h | h | h | h | h) | h | h | h) | h | h | h <;> subst h
    · exact hpy
    · decide
    · exact isEnvArg_behavior behavior_name
    · exact isEnvArg_algorithm algorithm
    · exact isEnvArg_batch batch_size
    · decide
    · decide
    · exact hparam
    · exact hv
    · decide
    · exact hparam
    · exact hv
  · intro env2 henv2
    rw [hself]
    simp [sweepCmd, if_pos henv2]

/-- Concrete instance of `sweepCmd_no_env`: with `env_path = "build/env"` the
command line is the base arguments plus the `--set` triple twice, with no
`--env` token. -/
theorem sweepCmd_no_env_witness :
    sweepCmd "python3" "beta" "0.1" "3DBall" "ppo" "2048" "build/env" =
      ["python3", "run_experiment.py", "--behavior-name=3DBall", "--algorithm=ppo",
       "--batch-size=2048", "--lr=0.0003", "--set", "beta", "0.1", "--set", "beta", "0.1"] := by
  have h := sweepCmd_no_env "python3" "beta" "0.1" "3DBall" "ppo" "2048" "build/env"
    (by decide) (by decide) (by decide) (by decide)
  simpa using h.1

/-- C4: the run-experiment entry point exits with code 2 exactly when, after
the placeholder-rename attempt, the requested behavior key is absent from the
behaviors mapping; when the key is present (directly or via the rename) no
such exit occurs. -/
theorem configStage_exit2 {V : Type} (behaviors : String → Option V) (name : String) :
    (configStage behaviors name = .error 2 ↔ renameStep behaviors name name = none) ∧
    ((behaviors name).isSome ∨ (behaviors BEHAVIOR_PLACEHOLDER).isSome →
      ∃ bs, configStage behaviors name = .ok bs) := by
  constructor
  · unfold configStage
    rcases h : renameStep behaviors name name with _ | v
    · simp [h]
    · simp [h]
  · intro hpresent
    have hsome : (renameStep behaviors name name).isSome := by
      unfold renameStep
      rcases hn : behaviors name with _ | v
      · rcases hpresent with hp | hp
        · rw [hn] at hp
          simp at hp
        · obtain ⟨w, hw⟩ := Option.isSome_iff_exists.mp hp
          simp [hw, hn]
      · simp [hn]
    obtain ⟨v, hv⟩ := Option.isSome_iff_exists.mp hsome
    exact ⟨renameStep behaviors name, by simp [configStage, hv]⟩

/-- Concrete instance of `configStage_exit2`: a mapping with neither the
target key nor the placeholder exits with code 2. -/
theorem configStage_exit2_witness :
    configStage (fun _ => (none : Option Nat)) "3DBall" = .error 2 :=
  (configStage_exit2 (fun _ => (none : Option Nat)) "3DBall").1.mpr rfl

/-- C5: when the behaviors mapping contains the placeholder key and not the
target key, the rename step removes the placeholder, binds the target key to
the former placeholder entry and leaves every other key unchanged; when the
target key already exists the mapping is not modified. -/
theorem renameStep_spec {V : Type} (behaviors : String → Option V) (name : String) :
    ((behaviors BEHAVIOR_PLACEHOLDER).isSome → behaviors name = none →
      (renameStep behaviors name BEHAVIOR_PLACEHOLDER = none ∧
       renameStep behaviors name name = behaviors BEHAVIOR_PLACEHOLDER ∧
       ∀ k, k ≠ BEHAVIOR_PLACEHOLDER → k ≠ name → renameStep behaviors name k = behaviors k)) ∧
    ((behaviors name).isSome → renameStep behaviors name = behaviors) := by
  constructor
  · intro hph hn
    have hcond : ((behaviors BEHAVIOR_PLACEHOLDER).isSome &&
        (behaviors name).isNone) = true := by
      simp [hph, hn]
    have hne : name ≠ BEHAVIOR_PLACEHOLDER := by
      intro h
      rw [h] at hn
      rw [hn] at hph
      simp at hph
    refine ⟨?_, ?_, ?_⟩
    · unfold renameStep
      rw [if_pos hcond]
      simp [Ne.symm hne]
    · unfold renameStep
      rw [if_pos hcond]
      simp
    · intro k hk1 hk2
      unfold renameStep
      rw [if_pos hcond]
      simp [hk1, hk2]
  · intro hn
    obtain ⟨v, hv⟩ := Option.isSome_iff_exists.mp hn
    simp [renameStep, hv]

/-- Concrete instance of `renameStep_spec`: renaming the placeholder entry to
`"3DBall"` in a one-entry mapping removes the placeholder and binds
`"3DBall"` to the old entry. -/
theorem renameStep_spec_witness :
    renameStep (fun k => if k = "__BEHAVIOR_NAME__" then some 1 else none) "3DBall"
      "__BEHAVIOR_NAME__" = none ∧
    renameStep (fun k => if k = "__BEHAVIOR_NAME__" then some 1 else none) "3DBall"
      "3DBall" = some 1 := by
  have h := (renameStep_spec (fun k => if k = "__BEHAVIOR_NAME__" then some 1 else none)
    "3DBall").1 (by decide) (by decide)
  exact ⟨h.1, h.2.1⟩

theorem ensureHeaderLoop_succ (ex : Bool) (env : Nat → Bool) (i n s : Nat) :
    ensureHeaderLoop ex env i (n + 1) s =
      if env i then .opened i s (!ex)
      else if n = 0 then .raised s
      else ensureHeaderLoop ex env (i + 1) n (s + 1) := rfl

theorem ensureHeaderLoop_raised (ex : Bool) (env : Nat → Bool) :
    ∀ n i s, (∀ k, k < n + 1 → env (i + k) = false) →
      ensureHeaderLoop ex env i (n + 1) s = .raised (s + n) := by
  intro n
  induction n with
  | zero =>
    intro i s h
    have h0 : env i = false := by simpa using h 0 (by omega)
    rw [ensureHeaderLoop_succ, h0]
    simp
  | succ m ih =>
    intro i s h
    have h0 : env i = false := by simpa using h 0 (by omega)
    have hrec := ih (i + 1) (s + 1) (fun k hk => by
      have := h (k + 1) (by omega)
      simpa [Nat.add_assoc, Nat.add_comm 1 k] using this)
    rw [ensureHeaderLoop_succ, h0]
    simp only [Bool.false_eq_true, if_false]
    rw [if_neg (by omega), hrec]
    congr 1
    omega

theorem ensureHeaderLoop_opened (ex : Bool) (env : Nat → Bool) :
    ∀ n i s j, j < n → (∀ k, k < j → env (i + k) = false) → env (i + j) = true →
      ensureHeaderLoop ex env i n s = .opened (i + j) (s + j) (!ex) := by
  intro n
  induction n with
  | zero => intro i s j hj; omega
  | succ m ih =>
    intro i s j hj hbefore hj2
    match j with
    | 0 =>
      have h0 : env i = true := by simpa using hj2
      rw [ensureHeaderLoop_succ, h0]
      simp
    | j' + 1 =>
      have h0 : env i = false := by simpa using hbefore 0 (by omega)
      have hm : j' < m := by omega
      have hrec := ih (i + 1) (s + 1) j' hm (fun k hk => by
        have := hbefore (k + 1) (by omega)
        simpa [Nat.add_assoc, Nat.add_comm 1 k] using this)
        (by have := hj2; rw [show i + (j' + 1) = i + 1 + j' by omega] at this; exact this)
      rw [ensureHeaderLoop_succ, h0]
      simp only [Bool.false_eq_true, if_false]
      rw [if_neg (by omega), hrec]
      congr 1 <;> omega

theorem ensureHeaderLoop_raised_inv (ex : Bool) (env : Nat → Bool) :
    ∀ n i s s', ensureHeaderLoop ex env i n s = .raised s' →
      ∀ k, k < n → env (i + k) = false := by
  intro n
  induction n with
  | zero => intro i s s' h k hk; omega
  | succ m ih =>
    intro i s s' h k hk
    by_cases h0 : env i = true
    · rw [ensureHeaderLoop_succ, h0] at h
      simp at h
    · have h0' : env i = false := by simpa using h0
      rw [ensureHeaderLoop_succ, h0'] at h
      simp only [Bool.false_eq_true, if_false] at h
      match k with
      | 0 => simpa using h0'
      | k' + 1 =>
        have hm : m ≠ 0 := by
          intro hm0
          rw [hm0] at hk
          omega
        rw [if_neg hm] at h
        have := ih (i + 1) (s + 1) s' h k' (by omega)
        rw [show i + (k' + 1) = i + 1 + k' by omega]
        exact this

/-- C7: with the default bounds, `ensure_header` re-raises the locking
failure exactly when all `LEDGER_RETRIES = 8` open attempts fail, after
`7` sleeps of `LEDGER_DELAY = 1.5` seconds (one fixed delay between each
pair of consecutive attempts); and whenever attempt `i < 8` is the first to
succeed, the file and writer are returned from that attempt with no error,
after `i` sleeps. -/
theorem ensure_header_retry (ex : Bool) (env : Nat → Bool) :
    LEDGER_RETRIES = 8 ∧ LEDGER_DELAY = 3/2 ∧
    ((∀ i, i < LEDGER_RETRIES → env i = false) ↔
      ensure_header ex env = .raised (LEDGER_RETRIES - 1)) ∧
    (∀ s, ensure_header ex env = .raised s → ∀ i, i < LEDGER_RETRIES → env i = false) ∧
    (∀ i, i < LEDGER_RETRIES → env i = true → (∀ j, j < i → env j = false) →
      ensure_header ex env = .opened i i (!ex)) := by
  refine ⟨rfl, rfl, ⟨?_, ?_⟩, ?_, ?_⟩
  · intro h
    have := ensureHeaderLoop_raised ex env 7 0 0 (fun k hk => by
      simpa using h k (by simpa [LEDGER_RETRIES] using hk))
    simpa [ensure_header, LEDGER_RETRIES] using this
  · intro h i hi
    have := ensureHeaderLoop_raised_inv ex env LEDGER_RETRIES 0 0 _ h i hi
    simpa using this
  · intro s h i hi
    have := ensureHeaderLoop_raised_inv ex env LEDGER_RETRIES 0 0 s h i hi
    simpa using this
  · intro i hi henv hbefore
    have := ensureHeaderLoop_opened ex env LEDGER_RETRIES 0 0 i hi
      (fun k hk => by simpa using hbefore k hk) (by simpa using henv)
    simpa [ensure_header] using this

/-- Concrete instance of `ensure_header_retry`: when the first two open
attempts fail and the third succeeds, the file is returned from attempt `2`
after two sleeps, with the header written into the fresh file. -/
theorem ensure_header_retry_witness :
    ensure_header false (fun i => decide (i = 2)) = .opened 2 2 true :=
  (ensure_header_retry false (fun i => decide (i = 2))).2.2.2.2 2 (by decide) (by decide)
    (by decide)

/-- C6 counterexample: the run record written for a trainer that exits with
status `1` is identical to the one written for status `0` — the ledger row
cannot record the subprocess's exit code, and indeed no ledger column is an
exit-status column.  This refutes the final clause of the claim ("the
subprocess's exit code is recorded in that record"). -/
theorem runRecord_ignores_exit_code :
    runExperimentOutcome (M := Nat) 7 (.exited 1 ["Mean Reward: 1.0"]) =
      runExperimentOutcome (M := Nat) 7 (.exited 0 ["Mean Reward: 1.0"]) ∧
    "exit_code" ∉ rowFieldnames ∧ "returncode" ∉ rowFieldnames ∧
    "exit_status" ∉ rowFieldnames :=
  ⟨rfl, by decide, by decide, by decide⟩

/-- C6 (amended): for every run whose trainer subprocess starts and exits —
with any status, zero or not — the launcher still constructs the run record
and appends it to the ledger, and `notFound` is the only launch outcome that
aborts (with exit code 127); but the exit status itself is not part of the
record, which depends only on the output lines and the pass-through
metadata. -/
theorem nonzero_exit_still_logged {M : Type} (ledger : List (RunRecord M)) (meta : M)
    (code : Int) (lines : List String) :
    runAndLog ledger meta (.exited code lines) =
      .ok (ledger ++ [⟨meta, mean_reward_of lines⟩]) ∧
    runAndLog ledger meta .notFound = .error 127 ∧
    runAndLog ledger meta (.exited code lines) = runAndLog ledger meta (.exited 0 lines) :=
  ⟨rfl, rfl, rfl⟩

/-- C8 counterexample: on a platform outside windows/linux/darwin (here
`"freebsd"`, with the probe utility failing), `detect_gpu` does not return
the pair `(None, None)` — it falls off the end of the function and returns
bare `None`, so the caller's tuple unpacking raises.  This refutes "for
every platform ... returns the pair (None, None)" and "never raises an
exception to its caller". -/
theorem detect_gpu_unknown_platform :
    detect_gpu "freebsd" .exc .exc .exc = none ∧
    detect_gpu "freebsd" .exc .exc .exc ≠ some (none, none) :=
  ⟨by decide, by decide⟩

/-- C8 (amended): on the three recognized platforms — windows, linux and
darwin — `detect_gpu` always returns a pair (it never raises to its caller
and never returns bare `None`), and every failure of the external probing
utilities is swallowed and reported as `(None, None)`: a raising invocation
on any branch, unparseable `nvidia-smi` output (no comma, so the tuple
unpacking raises `ValueError`) on windows/linux, and display output with no
recognizable chipset line (so `"Apple" in None` raises `TypeError`) on
darwin. -/
theorem detect_gpu_failures_swallowed (system : String)
    (h : system = "windows" ∨ system = "linux" ∨ system = "darwin") :
    (∀ i1 i2 i3, ∃ p, detect_gpu system i1 i2 i3 = some p) ∧
    detect_gpu system .exc .exc .exc = some (none, none) ∧
    ((system = "windows" ∨ system = "linux") →
      detect_gpu system (.ok "NVIDIA GeForce RTX no-comma-here") .exc .exc =
        some (none, none)) ∧
    (system = "darwin" →
      detect_gpu system .exc (.ok "Graphics: nothing recognised") .exc =
        some (none, none)) := by
  rcases h with h | h | h <;> subst h
  · exact ⟨fun i1 _ _ => ⟨nvidiaBranch i1, rfl⟩, by decide, fun _ => by decide,
      fun hd => absurd hd (by decide)⟩
  · exact ⟨fun i1 _ _ => ⟨nvidiaBranch i1, rfl⟩, by decide, fun _ => by decide,
      fun hd => absurd hd (by decide)⟩
  · exact ⟨fun _ i2 i3 => ⟨darwinBranch i2 i3, rfl⟩, by decide,
      fun hw => absurd hw (by decide), fun _ => by decide⟩

/-- Concrete instance of `detect_gpu_failures_swallowed`: on linux with the
probe utility failing, the probe reports `(None, None)`. -/
theorem detect_gpu_failures_swallowed_witness :
    detect_gpu "linux" .exc .exc .exc = some (none, none) :=
  (detect_gpu_failures_swallowed "linux" (Or.inr (Or.inl rfl))).2.1

end Spec2Proof

